import Mathlib

/-!
Verification of the test-report rendering engine of `huff_tests`
(`src/huff_tests/src/report.rs`).

The embedding below translates `print_test_report` and the payload
decoding it performs into pure Lean functions.  Output written to the
terminal is modelled as a list of `OutputEvent`s; a Rust panic
(`unwrap` on a failed decode, integer division by zero) is modelled by
the whole render returning `none`.  Terminal colouring (`yansi::Paint`)
only decorates text and is dropped, per the repository's design notes;
the comfy_table table is modelled by its content (header cells and row
cells); JSON serialization (`serde_json`) is an external service and is
passed in as a function parameter.
-/

/-- Modelled from the spec: the status variant set of the external
`TestStatus` type (defined in `huff_tests`'s prelude, not under `src/`):
`{Success, Revert, Failure}`. -/
inductive TestStatus
  | Success
  | Revert
  | Failure
deriving DecidableEq

/-- Modelled from the spec: the display-label mapping of the external
`TestStatus` type.  The renderer only forwards these labels; their exact
text lives outside the core, so the variant names are used. -/
def statusLabel : TestStatus → String
  | TestStatus.Success => ("Success")
  | TestStatus.Revert => ("Revert")
  | TestStatus.Failure => ("Failure")

/-- Discriminant comparison against `TestStatus::Success`
(report.rs lines 19-24). -/
def isSuccess : TestStatus → Bool
  | TestStatus.Success => true
  | _ => false

/-- Modelled from the spec: the external `TestResult` record
(name, status, gas, optional raw return-data hex, ordered PC/log pairs). -/
structure TestResult where
  name : String
  status : TestStatus
  gas : Nat
  return_data : Option String
  logs : List (Nat × String)
deriving DecidableEq

/-- The four output modes matched on in `print_test_report`
(report.rs lines 29, 53, 85, 137). -/
inductive ReportKind
  | Table
  | List
  | HuffTest
  | JSON
deriving DecidableEq

/-- One observable output action of the renderer.  `out`/`err` are
`println!`/`eprintln!` lines, `table` is the printed comfy_table
(header cells and row cells), and `summary` is the final
"N tests passed, ..." line of report.rs lines 146-152, kept structured
so that its computed numbers are visible. -/
inductive OutputEvent
  | out (line : String)
  | err (line : String)
  | table (header : List String) (rows : List (List String))
  | summary (n_passed n_failed pct : Nat) (elapsed : String)
deriving DecidableEq

/-- Rust `str::starts_with` on ASCII data: prefix test on the char list. -/
def strStartsWith (s p : String) : Bool :=
  p.data.isPrefixOf s.data

/-- Rust format padding `{: <w}`: left-align, pad with spaces up to `w`. -/
def padTo (s : String) (w : Nat) : String :=
  s ++ String.mk (List.replicate (w - s.length) ' ')

/-- Value of one hex digit, accepting both cases, as `hex::decode` does. -/
def hexDigitVal (c : Char) : Option Nat :=
  if '0' ≤ c ∧ c ≤ '9' then some (c.toNat - 48)
  else if 'a' ≤ c ∧ c ≤ 'f' then some (c.toNat - 87)
  else if 'A' ≤ c ∧ c ≤ 'F' then some (c.toNat - 55)
  else none

/-- Hex decoding of a char sequence: two digits per byte, failing on an
odd-length input or a non-hex character, as `hex::decode` does. -/
def hexDecodeChars : List Char → Option (List Nat)
  | [] => some []
  | [_] => none
  | c1 :: c2 :: rest =>
    match hexDigitVal c1, hexDigitVal c2, hexDecodeChars rest with
    | some h, some l, some tail => some ((h * 16 + l) :: tail)
    | _, _, _ => none

/-- Model of `ethers_core::utils::hex::decode` on a string. -/
def hexDecode (s : String) : Option (List Nat) :=
  hexDecodeChars s.data

/-- Continuation-byte second-byte constraint for a 3-byte UTF-8 sequence
(excludes overlong encodings and surrogates, as Rust's UTF-8 validation
does). -/
def utf8SecondByteOK (b1 b2 : Nat) : Bool :=
  if b1 = 0xE0 then decide (0xA0 ≤ b2 ∧ b2 ≤ 0xBF)
  else if b1 = 0xED then decide (0x80 ≤ b2 ∧ b2 ≤ 0x9F)
  else decide (0x80 ≤ b2 ∧ b2 ≤ 0xBF)

/-- Second-byte constraint for a 4-byte UTF-8 sequence. -/
def utf8SecondByteOK4 (b1 b2 : Nat) : Bool :=
  if b1 = 0xF0 then decide (0x90 ≤ b2 ∧ b2 ≤ 0xBF)
  else if b1 = 0xF4 then decide (0x80 ≤ b2 ∧ b2 ≤ 0x8F)
  else decide (0x80 ≤ b2 ∧ b2 ≤ 0xBF)

/-- Strict UTF-8 decoding (model of Rust `String::from_utf8`), written
with a fuel argument so that it is structurally recursive; `fuel` at
least the list length never runs out, each step consumes 1-4 bytes and
one unit of fuel. -/
def utf8DecodeAux : Nat → List Nat → Option (List Char)
  | _, [] => some []
  | 0, _ :: _ => none
  | fuel + 1, b1 :: rest =>
    if b1 < 0x80 then
      (utf8DecodeAux fuel rest).map (fun cs => Char.ofNat b1 :: cs)
    else if 0xC2 ≤ b1 ∧ b1 ≤ 0xDF then
      match rest with
      | b2 :: rest2 =>
        if 0x80 ≤ b2 ∧ b2 ≤ 0xBF then
          (utf8DecodeAux fuel rest2).map
            (fun cs => Char.ofNat ((b1 - 0xC0) * 0x40 + (b2 - 0x80)) :: cs)
        else none
      | [] => none
    else if 0xE0 ≤ b1 ∧ b1 ≤ 0xEF then
      match rest with
      | b2 :: b3 :: rest3 =>
        if utf8SecondByteOK b1 b2 ∧ (0x80 ≤ b3 ∧ b3 ≤ 0xBF) then
          (utf8DecodeAux fuel rest3).map
            (fun cs =>
              Char.ofNat ((b1 - 0xE0) * 0x1000 + (b2 - 0x80) * 0x40 + (b3 - 0x80)) :: cs)
        else none
      | _ => none
    else if 0xF0 ≤ b1 ∧ b1 ≤ 0xF4 then
      match rest with
      | b2 :: b3 :: b4 :: rest4 =>
        if utf8SecondByteOK4 b1 b2 ∧ (0x80 ≤ b3 ∧ b3 ≤ 0xBF) ∧ (0x80 ≤ b4 ∧ b4 ≤ 0xBF) then
          (utf8DecodeAux fuel rest4).map
            (fun cs =>
              Char.ofNat ((b1 - 0xF0) * 0x40000 + (b2 - 0x80) * 0x1000 +
                (b3 - 0x80) * 0x40 + (b4 - 0x80)) :: cs)
        else none
      | _ => none
    else none

/-- Strict UTF-8 decoding of a byte list. -/
def utf8DecodeList (bytes : List Nat) : Option (List Char) :=
  utf8DecodeAux bytes.length bytes

/-- Big-endian value of a byte list (how an ABI decoder reads a word). -/
def beVal (bytes : List Nat) : Nat :=
  List.foldl (fun acc b => acc * 256 + b) 0 bytes

/-- Read the 32-byte big-endian word of `data` starting at `off`,
failing when fewer than 32 bytes remain (ethabi's `peek_32_bytes`). -/
def wordAt (data : List Nat) (off : Nat) : Option Nat :=
  if off + 32 ≤ data.length then some (beVal ((data.drop off).take 32))
  else none

/-- Model of `ethers_core::abi::decode(&[ParamType::String], data)`
followed by `into_string`: read the head word as the offset of the
dynamic tail, the word there as the byte length, then take that many
bytes and require them to be valid UTF-8 (ethabi's bounds checks and
Rust's `String::from_utf8`). -/
def abiDecodeSingleString (data : List Nat) : Option String :=
  match wordAt data 0 with
  | none => none
  | some off =>
    match wordAt data off with
    | none => none
    | some len =>
      if off + 32 + len ≤ data.length then
        match utf8DecodeList ((data.drop (off + 32)).take len) with
        | none => none
        | some cs => some (String.mk cs)
      else none

/-- Model of `ethers_core::utils::parse_bytes32_string`: take the bytes
before the first NUL and parse them as UTF-8. -/
def parseBytes32String (bytes : List Nat) : Option String :=
  match utf8DecodeList (bytes.takeWhile (fun b => b != 0)) with
  | none => none
  | some cs => some (String.mk cs)

/-- Modelled from the spec: `format_even_bytes` lives in `huff_utils`
(code of this repository that is not under `src/`); the spec says it
normalizes a hex string "to even length by prepending a `\x7b0\x7d` if odd". -/
def format_even_bytes (bytes : String) : String :=
  if bytes.length % 2 = 1 then ("0") ++ bytes else bytes

/-- The revert-reason decode of report.rs lines 98-104: if the
return-data hex starts with the `Error(string)` selector `08c379a0`
(a case-sensitive test on the raw string), hex-decode the whole string
and ABI-decode everything after the 4 selector bytes as one dynamic
string; otherwise the literal `test failed`.  The source calls
`.unwrap()` on both decode steps, so a decode failure is a panic,
modelled as `none`. -/
def decodeRevert (return_data : String) : Option String :=
  if strStartsWith return_data ("08c379a0") then
    match hexDecode return_data with
    | none => none
    | some error_string =>
      match abiDecodeSingleString (error_string.drop 4) with
      | none => none
      | some msg => some msg
  else some ("test failed")

/-- Header line shared by both narrative modes (report.rs lines 55-61 and
87-93): `[<status>] <name padded to 15> - Gas used: <gas padded to 20>`. -/
def headerLine (r : TestResult) : String :=
  ("[") ++ statusLabel r.status ++ ("] ") ++ padTo r.name 15 ++ (" - ") ++
    ("Gas used:") ++ (" ") ++ padTo (toString r.gas) 20

/-- Row cells of the table mode (report.rs lines 43-48): name, raw
return data or the literal `None`, decimal gas, status label. -/
def tableRowCells (r : TestResult) : List String :=
  [r.name,
   (match r.return_data with
    | some d => d
    | none => ("None")),
   toString r.gas,
   statusLabel r.status]

/-- The whole printed table of `ReportKind::Table`
(report.rs lines 30-51): fixed header cells, one row per record in
input order. -/
def tableEvent (results : List TestResult) : OutputEvent :=
  OutputEvent.table [("Name"), ("Return Data"), ("Gas"), ("Status")]
    (results.map tableRowCells)

/-- Return-data block of `ReportKind::List` (report.rs lines 65-68).
`num_logs` in the source is `logs.len().saturating_sub(1)`, written here
as truncated `Nat` subtraction. -/
def listRetEvents (r : TestResult) : List OutputEvent :=
  match r.return_data with
  | none => []
  | some return_data =>
    [OutputEvent.out ("├─ RETURN DATA"),
     OutputEvent.out ((if r.logs.length - 1 = 0 then ("╰─") else ("├─")) ++
       (" ") ++ return_data)]

/-- One log line of `ReportKind::List` (report.rs lines 72-81), from an
`enumerate`d entry `(i, (pc, log))`. -/
def listLogLine (num_logs : Nat) (entry : Nat × Nat × String) : OutputEvent :=
  let i := entry.1
  let pc := entry.2.1
  let log := entry.2.2
  let conn := if i = num_logs then ("╰─") else ("├─")
  OutputEvent.out (conn ++ (" [PC: ") ++ toString pc ++ ("]: 0x") ++ log)

/-- Log block of `ReportKind::List` (report.rs lines 70-82): printed only
when `num_logs > 0`, i.e. when there are at least two log entries. -/
def listLogEvents (r : TestResult) : List OutputEvent :=
  let num_logs := r.logs.length - 1
  if 0 < num_logs then
    OutputEvent.out ("├─ LOGS") :: r.logs.enum.map (listLogLine num_logs)
  else []

/-- One record of `ReportKind::List` (report.rs lines 54-83). -/
def renderListRecord (r : TestResult) : List OutputEvent :=
  OutputEvent.out (headerLine r) :: (listRetEvents r ++ listLogEvents r)

/-- Return-data block of `ReportKind::HuffTest` (report.rs lines 97-106):
decode the revert payload; the `.unwrap()`s inside `decodeRevert` make a
decode failure a panic (`none`). -/
def huffRetEvents (r : TestResult) : Option (List OutputEvent) :=
  match r.return_data with
  | none => some []
  | some return_data =>
    match decodeRevert return_data with
    | none => none
    | some message =>
      some [OutputEvent.out ((if r.logs.length - 1 = 0 then ("╰─") else ("├─")) ++
        (" ") ++ message)]

/-- One log line of `ReportKind::HuffTest` (report.rs lines 109-133).
When the log starts with selector `32d5ab96`, hex-decode the remainder,
copy at most 32 bytes into a zero-filled 32-byte buffer and parse it as
a bytes32 string (`.unwrap()`s modelled as `none`).  Otherwise strip
leading zeros, substitute `00` for an empty result, pad to even length
and print with the `0x` prefix. -/
def huffLogLine (num_logs : Nat) (entry : Nat × Nat × String) : Option OutputEvent :=
  let i := entry.1
  let log := entry.2.2
  if strStartsWith log ("32d5ab96") then
    match hexDecode (String.mk (log.data.drop 8)) with
    | none => none
    | some message =>
      let bytes := message.take 32 ++ List.replicate (32 - (message.take 32).length) 0
      match parseBytes32String bytes with
      | none => none
      | some s =>
        some (OutputEvent.out ((if i = num_logs then ("╰─") else ("├─")) ++ (" ") ++ s))
  else
    let trimmed := String.mk (log.data.dropWhile (fun c => c == '0'))
    let pfx := if i = num_logs then ("╰─") else ("│ ")
    let bytes := if trimmed = ("") then ("00") else trimmed
    some (OutputEvent.out (pfx ++ (" 0x") ++ format_even_bytes bytes))

/-- Effectful map over a list in the `Option` monad, modelling a loop of
fallible (panicking) steps: the first failure aborts the whole walk. -/
def optionMapM {α β : Type} (f : α → Option β) : List α → Option (List β)
  | [] => some []
  | a :: l =>
    match f a, optionMapM f l with
    | some b, some bs => some (b :: bs)
    | _, _ => none

/-- Log block of `ReportKind::HuffTest` (report.rs lines 108-134): only
entered when `num_logs > 0` (at least two log entries); each entry is
decoded fallibly. -/
def huffLogEvents (r : TestResult) : Option (List OutputEvent) :=
  let num_logs := r.logs.length - 1
  if 0 < num_logs then optionMapM (huffLogLine num_logs) r.logs.enum
  else some []

/-- One record of `ReportKind::HuffTest` (report.rs lines 86-135). -/
def renderHuffTestRecord (r : TestResult) : Option (List OutputEvent) :=
  match huffRetEvents r with
  | none => none
  | some ret =>
    match huffLogEvents r with
    | none => none
    | some lgs => some (OutputEvent.out (headerLine r) :: (ret ++ lgs))

/-- The summary line of report.rs lines 146-152.  `n_passed * 100 /
n_results` is Rust `usize` division, which panics when `n_results` is
zero, hence `none` in that case; `n_results - n_passed` cannot
underflow because `n_passed` counts a sublist. -/
def summaryEvent (n_passed n_results : Nat) (elapsed : String) : Option OutputEvent :=
  if n_results = 0 then none
  else some (OutputEvent.summary n_passed (n_results - n_passed)
    (n_passed * 100 / n_results) elapsed)

/-- Recognizer for the summary event. -/
def isSummaryEvent : OutputEvent → Bool
  | OutputEvent.summary _ _ _ _ => true
  | _ => false

/-- Model of `print_test_report` (report.rs lines 15-153).  `elapsed`
stands for the formatted `start.elapsed()` of the summary line, and
`serialize` for `serde_json::to_string_pretty`, an external service.
`n_passed` is computed up front from the full collection, before any
mode-specific consumption.  The result is the list of output events, or
`none` when the Rust code would panic. -/
def print_test_report (results : List TestResult) (report_kind : ReportKind)
    (elapsed : String) (serialize : List TestResult → Option String) :
    Option (List OutputEvent) :=
  let n_passed := (results.filter (fun r => isSuccess r.status)).length
  let n_results := results.length
  match report_kind with
  | ReportKind.Table =>
    match summaryEvent n_passed n_results elapsed with
    | none => none
    | some s => some ([tableEvent results] ++ [s])
  | ReportKind.List =>
    match summaryEvent n_passed n_results elapsed with
    | none => none
    | some s => some (results.flatMap renderListRecord ++ [s])
  | ReportKind.HuffTest =>
    match optionMapM renderHuffTestRecord results with
    | none => none
    | some bodies =>
      match summaryEvent n_passed n_results elapsed with
      | none => none
      | some s => some (bodies.flatten ++ [s])
  | ReportKind.JSON =>
    match serialize results with
    | some o => some [OutputEvent.out o]
    | none => some [OutputEvent.err ("Error serializing test results into JSON.")]

/-- Follows the claim's words, not the source: claim C3 says the
selector test happens "after lowercasing".  ASCII lowercasing of the
input string. -/
def lowerAscii (s : String) : String :=
  String.mk (s.data.map Char.toLower)

/-- Follows the claim's words, not the source: `decodeRevert` as claim
C3 states it, with the selector tested on the lowercased input.
Compared against `decodeRevert` (the source behaviour) below. -/
def decodeRevertClaimed (return_data : String) : Option String :=
  if strStartsWith (lowerAscii return_data) ("08c379a0") then
    match hexDecode return_data with
    | none => none
    | some error_string =>
      match abiDecodeSingleString (error_string.drop 4) with
      | none => none
      | some msg => some msg
  else some ("test failed")

/-- Lowercase hex character of one nibble. -/
def nibbleChar (n : Nat) : Char :=
  if n < 10 then Char.ofNat (48 + n) else Char.ofNat (87 + n)

/-- Lowercase hex encoding of a byte list (claim-side, used to build
round-trip inputs for `decodeRevert`). -/
def hexEncode (bytes : List Nat) : String :=
  String.mk (bytes.flatMap (fun b => [nibbleChar (b / 16), nibbleChar (b % 16)]))

/-- Big-endian byte encoding of `n` on `k` bytes (claim-side). -/
def natToBEBytes : Nat → Nat → List Nat
  | 0, _ => []
  | k + 1, n => natToBEBytes k (n / 256) ++ [n % 256]

/-- Follows the spec's words: the standard ABI encoding of
`Error(string)` applied to the ASCII bytes of `s` — selector, offset
word 0x20, length word, string bytes, zero padding to a 32-byte
multiple — as lowercase hex. -/
def abiEncodeErrorHex (s : String) : String :=
  ("08c379a0") ++ hexEncode (natToBEBytes 32 32 ++
    (natToBEBytes 32 (s.data.map Char.toNat).length ++
      ((s.data.map Char.toNat) ++
        List.replicate ((32 - (s.data.map Char.toNat).length % 32) % 32) 0)))

/-- Sample record builder used by concrete witnesses. -/
def mkRec (nm : String) (st : TestStatus) : TestResult :=
  { name := nm, status := st, gas := 0, return_data := none, logs := [] }

/-- Four sample records, three passing and one failing. -/
def sample4 : List TestResult :=
  [mkRec ("a") TestStatus.Success, mkRec ("b") TestStatus.Success,
   mkRec ("c") TestStatus.Success, mkRec ("d") TestStatus.Failure]

/-- Sample record with exactly one log entry. -/
def recOneLog : TestResult :=
  { name := ("one"), status := TestStatus.Success, gas := 1, return_data := none,
    logs := [(10, ("ff"))] }

/-- Sample record with two plain-hex log entries. -/
def recTwoLogs : TestResult :=
  { name := ("two"), status := TestStatus.Success, gas := 2, return_data := none,
    logs := [(1, ("ff")), (2, ("aa"))] }

/-- Sample record with return data and two log entries. -/
def recRetTwoLogs : TestResult :=
  { name := ("ret"), status := TestStatus.Revert, gas := 3,
    return_data := some ("dead"), logs := [(1, ("ff")), (2, ("aa"))] }

/-- Sample record whose return data matches the revert selector but has
malformed hex after it: decoding it panics in the source. -/
def recBadRevert : TestResult :=
  { name := ("bad"), status := TestStatus.Revert, gas := 4,
    return_data := some ("08c379a0zz"), logs := [] }

/-- Well-formed record placed after `recBadRevert` to show the panic
also suppresses its rendering. -/
def recAfterBad : TestResult :=
  { name := ("good"), status := TestStatus.Success, gas := 5, return_data := none,
    logs := [] }

/-- ABI payload bytes of `Error("hello")` after the selector. -/
def helloPayloadBytes : List Nat :=
  natToBEBytes 32 32 ++ natToBEBytes 32 5 ++ [104, 101, 108, 108, 111] ++
    List.replicate 27 0

/-- `Error("hello")` hex with the selector written in uppercase. -/
def upperHelloHex : String :=
  ("08C379A0") ++ hexEncode helloPayloadBytes

/-! Helper lemmas. -/

theorem optionMapM_length {α β : Type} {f : α → Option β} {l : List α} {ys : List β}
    (h : optionMapM f l = some ys) : ys.length = l.length := by
  induction l generalizing ys with
  | nil =>
    simp only [optionMapM] at h
    cases h
    rfl
  | cons a l ih =>
    simp only [optionMapM] at h
    cases hfa : f a with
    | none => rw [hfa] at h; simp at h
    | some b =>
      cases hrec : optionMapM f l with
      | none => rw [hfa, hrec] at h; simp at h
      | some bs =>
        rw [hfa, hrec] at h
        cases h
        simp [ih hrec]

theorem optionMapM_getElem? {α β : Type} {f : α → Option β} {l : List α} {ys : List β}
    (h : optionMapM f l = some ys) (i : Nat) : ys[i]? = (l[i]?).bind f := by
  induction l generalizing ys i with
  | nil =>
    simp only [optionMapM] at h
    cases h
    simp
  | cons a l ih =>
    simp only [optionMapM] at h
    cases hfa : f a with
    | none => rw [hfa] at h; simp at h
    | some b =>
      cases hrec : optionMapM f l with
      | none => rw [hfa, hrec] at h; simp at h
      | some bs =>
        rw [hfa, hrec] at h
        cases h
        cases i with
        | zero => simp [hfa]
        | succ n => simp [ih hrec n]

theorem length_natToBEBytes (k : Nat) : ∀ n, (natToBEBytes k n).length = k := by
  induction k with
  | zero => intro n; rfl
  | succ k ih => intro n; simp [natToBEBytes, ih]

theorem beVal_append_one (xs : List Nat) (b : Nat) :
    beVal (xs ++ [b]) = beVal xs * 256 + b := by
  simp [beVal, List.foldl_append]

theorem beVal_natToBEBytes (k : Nat) : ∀ n, beVal (natToBEBytes k n) = n % 256 ^ k := by
  induction k with
  | zero => intro n; simp [natToBEBytes, beVal, Nat.mod_one]
  | succ k ih =>
    intro n
    rw [natToBEBytes, beVal_append_one, ih]
    have h := @Nat.mod_mul 256 (256 ^ k) n
    rw [Nat.pow_succ, Nat.mul_comm (256 ^ k) 256, h]
    omega

theorem mem_natToBEBytes_lt (k : Nat) : ∀ n, ∀ b ∈ natToBEBytes k n, b < 256 := by
  induction k with
  | zero => intro n b hb; simp [natToBEBytes] at hb
  | succ k ih =>
    intro n b hb
    simp only [natToBEBytes, List.mem_append, List.mem_singleton] at hb
    rcases hb with h | h
    · exact ih _ _ h
    · omega

theorem hexDigitVal_nibbleChar : ∀ n, n < 16 → hexDigitVal (nibbleChar n) = some n := by
  decide

theorem hexDecodeChars_pairs (bytes : List Nat) (h : ∀ b ∈ bytes, b < 256) :
    hexDecodeChars (bytes.flatMap (fun b => [nibbleChar (b / 16), nibbleChar (b % 16)])) =
      some bytes := by
  induction bytes with
  | nil => rfl
  | cons b l ih =>
    have hb : b < 256 := h b (by simp)
    have hhi : b / 16 < 16 := by omega
    have hlo : b % 16 < 16 := by omega
    simp only [List.flatMap_cons, List.cons_append, List.nil_append]
    simp only [hexDecodeChars]
    rw [hexDigitVal_nibbleChar _ hhi, hexDigitVal_nibbleChar _ hlo,
      ih (fun x hx => h x (by simp [hx]))]
    have hdm : b / 16 * 16 + b % 16 = b := by omega
    show some ((b / 16 * 16 + b % 16) :: l) = some (b :: l)
    rw [hdm]

theorem hexDecode_hexEncode (bytes : List Nat) (h : ∀ b ∈ bytes, b < 256) :
    hexDecode (hexEncode bytes) = some bytes :=
  hexDecodeChars_pairs bytes h

theorem utf8DecodeAux_ascii (fuel : Nat) : ∀ (cs : List Char), cs.length ≤ fuel →
    (∀ c ∈ cs, c.toNat < 128) → utf8DecodeAux fuel (cs.map Char.toNat) = some cs := by
  induction fuel with
  | zero =>
    intro cs hlen _
    cases cs with
    | nil => rfl
    | cons c l => simp at hlen
  | succ fuel ih =>
    intro cs hlen hascii
    cases cs with
    | nil => rfl
    | cons c l =>
      have hc : c.toNat < 128 := hascii c (by simp)
      simp only [List.map_cons, utf8DecodeAux]
      rw [if_pos hc]
      rw [ih l (by simp only [List.length_cons] at hlen; omega)
        (fun x hx => hascii x (by simp [hx]))]
      simp [Char.ofNat_toNat]

theorem utf8DecodeList_ascii (cs : List Char) (h : ∀ c ∈ cs, c.toNat < 128) :
    utf8DecodeList (cs.map Char.toNat) = some cs :=
  utf8DecodeAux_ascii _ cs (by simp) h

theorem format_even_bytes_length_even (s : String) :
    (format_even_bytes s).length % 2 = 0 := by
  unfold format_even_bytes
  by_cases h : s.length % 2 = 1
  · rw [if_pos h, String.length_append]
    have h0 : ("0" : String).length = 1 := rfl
    omega
  · rw [if_neg h]
    omega

theorem format_even_bytes_length_ge (s : String) :
    s.length ≤ (format_even_bytes s).length := by
  unfold format_even_bytes
  by_cases h : s.length % 2 = 1
  · rw [if_pos h, String.length_append]
    omega
  · rw [if_neg h]

theorem strStartsWith_append (p t : String) : strStartsWith (p ++ t) p = true := by
  unfold strStartsWith
  rw [String.data_append]
  exact List.isPrefixOf_iff_prefix.mpr (List.prefix_append p.data t.data)

theorem take_32_of_append (w rest : List Nat) (hw : w.length = 32) :
    (w ++ rest).take 32 = w := by
  rw [← hw]
  exact List.take_left w rest

theorem drop_32_of_append (w rest : List Nat) (hw : w.length = 32) :
    (w ++ rest).drop 32 = rest := by
  rw [← hw]
  exact List.drop_left w rest

theorem wordAt_zero_encode (n : Nat) (rest : List Nat) :
    wordAt (natToBEBytes 32 n ++ rest) 0 = some (n % 256 ^ 32) := by
  unfold wordAt
  rw [if_pos (by simp [List.length_append, length_natToBEBytes])]
  rw [List.drop_zero, take_32_of_append _ _ (length_natToBEBytes 32 n),
    beVal_natToBEBytes]

theorem wordAt_32_encode (n m : Nat) (rest : List Nat) :
    wordAt (natToBEBytes 32 n ++ (natToBEBytes 32 m ++ rest)) 32 = some (m % 256 ^ 32) := by
  unfold wordAt
  rw [if_pos (by simp [List.length_append, length_natToBEBytes]; omega)]
  rw [drop_32_of_append _ _ (length_natToBEBytes 32 n),
    take_32_of_append _ _ (length_natToBEBytes 32 m), beVal_natToBEBytes]

theorem abiDecode_encodePayload (bs : List Nat) (pad : Nat)
    (hlen : bs.length < 256 ^ 32) :
    abiDecodeSingleString
      (natToBEBytes 32 32 ++ (natToBEBytes 32 bs.length ++ (bs ++ List.replicate pad 0))) =
      (utf8DecodeList bs).map String.mk := by
  have h32 : (32 : Nat) < 256 ^ 32 :=
    lt_of_lt_of_le (by norm_num) (Nat.le_self_pow (by norm_num) 256)
  have hw0 : wordAt (natToBEBytes 32 32 ++
      (natToBEBytes 32 bs.length ++ (bs ++ List.replicate pad 0))) 0 = some 32 := by
    rw [wordAt_zero_encode, Nat.mod_eq_of_lt h32]
  have hw32 : wordAt (natToBEBytes 32 32 ++
      (natToBEBytes 32 bs.length ++ (bs ++ List.replicate pad 0))) 32 = some bs.length := by
    rw [wordAt_32_encode, Nat.mod_eq_of_lt hlen]
  unfold abiDecodeSingleString
  simp only [hw0, hw32]
  rw [if_pos (by
    simp [List.length_append, length_natToBEBytes, List.length_replicate]
    omega)]
  have hdrop : (natToBEBytes 32 32 ++
      (natToBEBytes 32 bs.length ++ (bs ++ List.replicate pad 0))).drop (32 + 32) =
      bs ++ List.replicate pad 0 := by
    rw [← List.drop_drop]
    rw [drop_32_of_append _ _ (length_natToBEBytes 32 32),
      drop_32_of_append _ _ (length_natToBEBytes 32 bs.length)]
  rw [hdrop, List.take_left bs (List.replicate pad 0)]
  cases hu : utf8DecodeList bs with
  | none => simp
  | some cs => simp

theorem hexEncode_append (a b : List Nat) :
    hexEncode (a ++ b) = hexEncode a ++ hexEncode b := by
  unfold hexEncode
  rw [List.flatMap_append]
  rfl

theorem decodeRevert_abiEncode (s : String)
    (hascii : ∀ c ∈ s.data, c.toNat < 128)
    (hlen : s.data.length < 256 ^ 32) :
    decodeRevert (abiEncodeErrorHex s) = some s := by
  have hdef : abiEncodeErrorHex s = ("08c379a0") ++
      hexEncode (natToBEBytes 32 32 ++ (natToBEBytes 32 (s.data.map Char.toNat).length ++
        ((s.data.map Char.toNat) ++
          List.replicate ((32 - (s.data.map Char.toNat).length % 32) % 32) 0))) := rfl
  have hsel : ("08c379a0" : String) = hexEncode [8, 195, 121, 160] := rfl
  have hbound : ∀ b ∈ ([8, 195, 121, 160] ++ (natToBEBytes 32 32 ++
      (natToBEBytes 32 (s.data.map Char.toNat).length ++ ((s.data.map Char.toNat) ++
        List.replicate ((32 - (s.data.map Char.toNat).length % 32) % 32) 0)))), b < 256 := by
    intro b hb
    simp only [List.mem_append, List.mem_map, List.mem_replicate] at hb
    rcases hb with h | h | h | h | h
    · fin_cases h <;> norm_num
    · exact mem_natToBEBytes_lt 32 32 b h
    · exact mem_natToBEBytes_lt 32 _ b h
    · obtain ⟨c, hc, rfl⟩ := h
      exact lt_trans (hascii c hc) (by norm_num)
    · omega
  have hhex : hexDecode (abiEncodeErrorHex s) =
      some ([8, 195, 121, 160] ++ (natToBEBytes 32 32 ++
        (natToBEBytes 32 (s.data.map Char.toNat).length ++ ((s.data.map Char.toNat) ++
          List.replicate ((32 - (s.data.map Char.toNat).length % 32) % 32) 0)))) := by
    rw [hdef, hsel, ← hexEncode_append]
    exact hexDecode_hexEncode _ hbound
  have hpref : strStartsWith (abiEncodeErrorHex s) ("08c379a0") = true := by
    rw [hdef]
    exact strStartsWith_append _ _
  unfold decodeRevert
  rw [if_pos hpref]
  simp only [hhex]
  have hdrop4 : ([8, 195, 121, 160] ++ (natToBEBytes 32 32 ++
      (natToBEBytes 32 (s.data.map Char.toNat).length ++ ((s.data.map Char.toNat) ++
        List.replicate ((32 - (s.data.map Char.toNat).length % 32) % 32) 0)))).drop 4 =
      natToBEBytes 32 32 ++ (natToBEBytes 32 (s.data.map Char.toNat).length ++
        ((s.data.map Char.toNat) ++
          List.replicate ((32 - (s.data.map Char.toNat).length % 32) % 32) 0)) := rfl
  rw [hdrop4]
  have hlen2 : (s.data.map Char.toNat).length < 256 ^ 32 := by
    rw [List.length_map]
    exact hlen
  rw [abiDecode_encodePayload _ _ hlen2]
  rw [utf8DecodeList_ascii s.data hascii]
  rfl

theorem print_nonJSON_getLast (results : List TestResult) (kind : ReportKind)
    (elapsed : String) (serialize : List TestResult → Option String)
    (evs : List OutputEvent) (hkind : kind ≠ ReportKind.JSON)
    (hev : print_test_report results kind elapsed serialize = some evs) :
    evs.getLast? = some (OutputEvent.summary
      ((results.filter (fun r => isSuccess r.status)).length)
      (results.length - (results.filter (fun r => isSuccess r.status)).length)
      ((results.filter (fun r => isSuccess r.status)).length * 100 / results.length)
      elapsed) := by
  by_cases hn : results.length = 0
  · exfalso
    have hnil : results = [] := List.length_eq_zero.mp hn
    subst hnil
    cases kind with
    | JSON => exact hkind rfl
    | Table => exact Option.noConfusion hev
    | List => exact Option.noConfusion hev
    | HuffTest => exact Option.noConfusion hev
  · cases kind with
    | JSON => exact absurd rfl hkind
    | Table =>
      simp only [print_test_report, summaryEvent, hn, if_false] at hev
      have hx := Option.some.inj hev
      rw [← hx]
      exact List.getLast?_concat _
    | List =>
      simp only [print_test_report, summaryEvent, hn, if_false] at hev
      have hx := Option.some.inj hev
      rw [← hx]
      exact List.getLast?_concat _
    | HuffTest =>
      simp only [print_test_report, summaryEvent, hn, if_false] at hev
      cases hb : optionMapM renderHuffTestRecord results with
      | none => rw [hb] at hev; exact Option.noConfusion hev
      | some bodies =>
        rw [hb] at hev
        have hx := Option.some.inj hev
        rw [← hx]
        exact List.getLast?_concat _

/-! Claim theorems. -/

/-- Claim C1 (code bug): the claim says the summary for an empty record
collection is special-cased and never divides by zero or panics; the
source instead evaluates `n_passed * 100 / n_results` unconditionally
(report.rs line 150), which panics when the collection is empty.  This
theorem evaluates the model at the failing input: in all three
summary-emitting modes an empty collection makes the whole render panic
(`none`), so no special-cased "0 tests ran" line exists. -/
theorem c1_empty_collection_division_panics (elapsed : String)
    (serialize : List TestResult → Option String) :
    print_test_report [] ReportKind.Table elapsed serialize = none ∧
    print_test_report [] ReportKind.List elapsed serialize = none ∧
    print_test_report [] ReportKind.HuffTest elapsed serialize = none :=
  ⟨rfl, rfl, rfl⟩

/-- Claim C2 counterexample: a record with exactly one log entry.  The
source computes `num_logs = logs.len().saturating_sub(1)` and guards the
whole log block with `num_logs > 0` (report.rs lines 63, 70, 95, 108),
so with one log entry neither narrative mode prints any log output — no
"LOGS" heading and no log line — contradicting the claim's "including
the case of exactly one log entry". -/
theorem c2_single_log_entry_not_rendered :
    recOneLog.logs.length = 1 ∧
    listLogEvents recOneLog = [] ∧
    huffLogEvents recOneLog = some [] ∧
    renderListRecord recOneLog = [OutputEvent.out (headerLine recOneLog)] ∧
    renderHuffTestRecord recOneLog = some [OutputEvent.out (headerLine recOneLog)] :=
  ⟨rfl, rfl, rfl, rfl, rfl⟩

/-- Claim C2 as amended: the narrative modes render the log block
exactly when the record has at least two log entries.  In that case the
raw narrative mode prints a "LOGS" heading followed by one line per log
entry, and the decoded narrative mode (when it does not panic) prints
one decoded line per log entry; with one or zero log entries nothing at
all is printed for the logs. -/
theorem c2_amended_logs_rendered_iff_at_least_two (r : TestResult)
    (h2 : 2 ≤ r.logs.length) :
    (listLogEvents r).head? = some (OutputEvent.out ("├─ LOGS")) ∧
    (listLogEvents r).length = r.logs.length + 1 ∧
    (∀ evs, huffLogEvents r = some evs → evs.length = r.logs.length) ∧
    (∀ r2 : TestResult, r2.logs.length ≤ 1 →
      listLogEvents r2 = [] ∧ huffLogEvents r2 = some []) := by
  have hpos : 0 < r.logs.length - 1 := by omega
  refine ⟨?_, ?_, ?_, ?_⟩
  · simp [listLogEvents, hpos]
  · simp [listLogEvents, hpos, List.enum_length]
  · intro evs hev
    simp only [huffLogEvents] at hev
    rw [if_pos hpos] at hev
    have hl := optionMapM_length hev
    simpa [List.enum_length] using hl
  · intro r2 hle
    have hz : r2.logs.length - 1 = 0 := by omega
    constructor
    · simp [listLogEvents, hz]
    · simp [huffLogEvents, hz]

/-- Witness for the amended claim C2 at a concrete two-log record. -/
theorem c2_amended_witness :
    2 ≤ recTwoLogs.logs.length ∧
    ((listLogEvents recTwoLogs).head? = some (OutputEvent.out ("├─ LOGS")) ∧
     (listLogEvents recTwoLogs).length = recTwoLogs.logs.length + 1 ∧
     (∀ evs, huffLogEvents recTwoLogs = some evs → evs.length = recTwoLogs.logs.length) ∧
     (∀ r2 : TestResult, r2.logs.length ≤ 1 →
       listLogEvents r2 = [] ∧ huffLogEvents r2 = some [])) :=
  ⟨by decide, c2_amended_logs_rendered_iff_at_least_two recTwoLogs (by decide)⟩

/-- Claim C3 counterexample: `Error("hello")` with the selector written
in uppercase.  After lowercasing it starts with `08c379a0`, and the
claim's reading (`decodeRevertClaimed`) decodes it to `hello`; the
source's `starts_with` test (report.rs line 98) is case sensitive, never
lowercases, and returns `test failed` instead. -/
theorem c3_lowercasing_counterexample :
    strStartsWith (lowerAscii upperHelloHex) ("08c379a0") = true ∧
    decodeRevertClaimed upperHelloHex = some ("hello") ∧
    decodeRevert upperHelloHex = some ("test failed") ∧
    decodeRevertClaimed upperHelloHex ≠ decodeRevert upperHelloHex :=
  ⟨rfl, rfl, rfl, by decide⟩

/-- Claim C3 as amended: the selector test is case sensitive and done on
the raw string (no lowercasing).  Any input not starting with the exact
lowercase selector `08c379a0` — including the same selector in uppercase
— yields the literal `test failed`; and an input that is the standard
ABI `Error(string)` encoding of an ASCII string decodes back to exactly
that string. -/
theorem c3_amended_case_sensitive_selector (raw s : String)
    (hascii : ∀ c ∈ s.data, c.toNat < 128)
    (hlen : s.data.length < 256 ^ 32) :
    (strStartsWith raw ("08c379a0") = false → decodeRevert raw = some ("test failed")) ∧
    decodeRevert (abiEncodeErrorHex s) = some s := by
  constructor
  · intro hfalse
    simp [decodeRevert, hfalse]
  · exact decodeRevert_abiEncode s hascii hlen

/-- Witness for the amended claim C3: the uppercase-selector input
returns `test failed`, and the encoding of `hello` round-trips. -/
theorem c3_amended_witness :
    (∀ c ∈ ("hello").data, c.toNat < 128) ∧
    ("hello").data.length < 256 ^ 32 ∧
    decodeRevert upperHelloHex = some ("test failed") ∧
    decodeRevert (abiEncodeErrorHex ("hello")) = some ("hello") := by
  have h := c3_amended_case_sensitive_selector upperHelloHex ("hello") (by decide) (by decide)
  exact ⟨by decide, by decide, h.1 (by decide), h.2⟩

/-- Claim C4 (code bug): the claim (and the spec's propagation policy)
says a decode failure is local to the record being rendered and must not
abort the rendering of subsequent records; the source calls `.unwrap()`
on the decode results (report.rs lines 99-101), so a malformed payload
panics and kills the whole report.  At the failing input — a record
whose return data is `08c379a0zz` (matching selector, malformed hex)
followed by a healthy record — the decode fails, the healthy record
would render fine on its own, yet the whole narrative-decoded render
aborts. -/
theorem c4_decode_failure_aborts_whole_report (elapsed : String)
    (serialize : List TestResult → Option String) :
    decodeRevert ("08c379a0zz") = none ∧
    renderHuffTestRecord recBadRevert = none ∧
    renderHuffTestRecord recAfterBad = some [OutputEvent.out (headerLine recAfterBad)] ∧
    print_test_report [recBadRevert, recAfterBad] ReportKind.HuffTest elapsed serialize = none :=
  ⟨rfl, rfl, rfl, rfl⟩

/-- Claim C5: for every collection rendered in a summary-emitting mode,
the final summary reports passed = the number of records whose status is
`Success` counted over the original collection, failed = total minus
passed, and percentage = floor(passed x 100 / total) with the original
full record count as denominator. -/
theorem c5_summary_counts_from_original_collection (results : List TestResult)
    (kind : ReportKind) (elapsed : String)
    (serialize : List TestResult → Option String) (evs : List OutputEvent)
    (hkind : kind ≠ ReportKind.JSON)
    (hev : print_test_report results kind elapsed serialize = some evs) :
    evs.getLast? = some (OutputEvent.summary
      ((results.filter (fun r => isSuccess r.status)).length)
      (results.length - (results.filter (fun r => isSuccess r.status)).length)
      ((results.filter (fun r => isSuccess r.status)).length * 100 / results.length)
      elapsed) :=
  print_nonJSON_getLast results kind elapsed serialize evs hkind hev

/-- Witness for claim C5: four records, three passing, give the summary
3 passed / 1 failed / 75 percent. -/
theorem c5_witness :
    ReportKind.Table ≠ ReportKind.JSON ∧
    print_test_report sample4 ReportKind.Table ("t") (fun _ => none) =
      some [tableEvent sample4, OutputEvent.summary 3 1 75 ("t")] ∧
    [tableEvent sample4, OutputEvent.summary 3 1 75 ("t")].getLast? =
      some (OutputEvent.summary 3 1 75 ("t")) := by
  refine ⟨by decide, rfl, ?_⟩
  exact c5_summary_counts_from_original_collection sample4 ReportKind.Table ("t")
    (fun _ => none) [tableEvent sample4, OutputEvent.summary 3 1 75 ("t")] (by decide) rfl

/-- Claim C6 counterexample: with an empty collection the tabular mode
(not the structured-dump mode) emits no summary line at all — the
percentage computation panics first — so "the other three modes always
emit it" fails as stated. -/
theorem c6_empty_table_no_summary :
    ReportKind.Table ≠ ReportKind.JSON ∧
    print_test_report [] ReportKind.Table ("t") (fun _ => some ("ok")) = none :=
  ⟨by decide, rfl⟩

/-- Claim C6 as amended: the structured-dump (JSON) mode never emits the
summary event — it prints exactly the serialized document, or exactly
one error-channel message when serialization fails, and nothing further;
the other three modes end with the summary event whenever their render
completes without panicking (which fails for an empty collection, where
the percentage computation divides by zero). -/
theorem c6_amended_summary_presence (results : List TestResult) (elapsed : String)
    (serialize : List TestResult → Option String) :
    (∀ evs, print_test_report results ReportKind.JSON elapsed serialize = some evs →
      ∀ e ∈ evs, isSummaryEvent e = false) ∧
    (∀ o, serialize results = some o →
      print_test_report results ReportKind.JSON elapsed serialize =
        some [OutputEvent.out o]) ∧
    (serialize results = none →
      print_test_report results ReportKind.JSON elapsed serialize =
        some [OutputEvent.err ("Error serializing test results into JSON.")]) ∧
    (∀ kind, kind ≠ ReportKind.JSON → ∀ evs,
      print_test_report results kind elapsed serialize = some evs →
      ∃ p f q, evs.getLast? = some (OutputEvent.summary p f q elapsed)) := by
  refine ⟨?_, ?_, ?_, ?_⟩
  · intro evs hev e he
    cases hs : serialize results with
    | some o =>
      simp only [print_test_report, hs] at hev
      have hx := Option.some.inj hev
      rw [← hx] at he
      simp only [List.mem_singleton] at he
      rw [he]
      rfl
    | none =>
      simp only [print_test_report, hs] at hev
      have hx := Option.some.inj hev
      rw [← hx] at he
      simp only [List.mem_singleton] at he
      rw [he]
      rfl
  · intro o hs
    simp [print_test_report, hs]
  · intro hs
    simp [print_test_report, hs]
  · intro kind hk evs hev
    exact ⟨_, _, _, print_nonJSON_getLast results kind elapsed serialize evs hk hev⟩

/-- Witness for the amended claim C6: a failing serializer yields only
the error-channel message (no summary), while tabular mode on the
four-record sample ends with the summary event. -/
theorem c6_amended_witness :
    (∀ e ∈ [OutputEvent.err ("Error serializing test results into JSON.")],
      isSummaryEvent e = false) ∧
    (∃ p f q, [tableEvent sample4, OutputEvent.summary 3 1 75 ("t")].getLast? =
      some (OutputEvent.summary p f q ("t"))) := by
  have h := c6_amended_summary_presence sample4 ("t") (fun _ => none)
  exact ⟨h.1 _ rfl, h.2.2.2 ReportKind.Table (by decide) _ rfl⟩

/-- Claim C7: the tabular mode prints a table whose header columns are,
in order, Name / Return Data / Gas / Status, with exactly one row per
record in input order; the return-data cell is the literal `None` when
absent and the raw hex otherwise, the gas cell is the decimal string of
the gas integer, the status cell is the status label, and no payload
decoding is involved. -/
theorem c7_tabular_mode_table_shape (results : List TestResult) (elapsed : String)
    (serialize : List TestResult → Option String) (evs : List OutputEvent)
    (hev : print_test_report results ReportKind.Table elapsed serialize = some evs) :
    ∃ rows : List (List String),
      evs.head? = some (OutputEvent.table [("Name"), ("Return Data"), ("Gas"), ("Status")] rows) ∧
      rows.length = results.length ∧
      (∀ (i : Nat) (r0 : TestResult), results[i]? = some r0 →
        rows[i]? = some [r0.name,
          (match r0.return_data with
           | some d => d
           | none => ("None")),
          toString r0.gas,
          statusLabel r0.status]) := by
  by_cases hn : results.length = 0
  · exfalso
    have hnil : results = [] := List.length_eq_zero.mp hn
    subst hnil
    exact Option.noConfusion hev
  · refine ⟨results.map tableRowCells, ?_, by simp, ?_⟩
    · simp only [print_test_report, summaryEvent, hn, if_false] at hev
      have hx := Option.some.inj hev
      rw [← hx]
      simp [tableEvent]
    · intro i r0 hr
      simp [List.getElem?_map, hr, tableRowCells]

/-- Witness for claim C7 at the four-record sample. -/
theorem c7_witness :
    ∃ rows : List (List String),
      ([tableEvent sample4, OutputEvent.summary 3 1 75 ("t")].head? =
        some (OutputEvent.table [("Name"), ("Return Data"), ("Gas"), ("Status")] rows)) ∧
      rows.length = sample4.length ∧
      (∀ (i : Nat) (r0 : TestResult), sample4[i]? = some r0 →
        rows[i]? = some [r0.name,
          (match r0.return_data with
           | some d => d
           | none => ("None")),
          toString r0.gas,
          statusLabel r0.status]) :=
  c7_tabular_mode_table_shape sample4 ("t") (fun _ => none)
    [tableEvent sample4, OutputEvent.summary 3 1 75 ("t")] rfl

/-- Claim C8: on the decoded-mode fallback path (log without a known
selector) the rendered line is the tree connector, a space, `0x`, then a
body obtained by stripping leading zero characters, substituting `00`
when the result is empty, and prepending one `0` when its length is odd;
the body is never empty, always has even length, and an all-zeros log
renders as `00`. -/
theorem c8_fallback_hex_normalization (log : String) (pc i num_logs : Nat)
    (hsel : strStartsWith log ("32d5ab96") = false) :
    ∃ body,
      huffLogLine num_logs (i, pc, log) =
        some (OutputEvent.out ((if i = num_logs then ("╰─") else ("│ ")) ++ (" 0x") ++ body)) ∧
      body = format_even_bytes (if String.mk (log.data.dropWhile (fun c => c == '0')) = ("")
        then ("00") else String.mk (log.data.dropWhile (fun c => c == '0'))) ∧
      body.length % 2 = 0 ∧
      body ≠ ("") ∧
      ((∀ c ∈ log.data, c = '0') → body = ("00")) := by
  refine ⟨format_even_bytes (if String.mk (log.data.dropWhile (fun c => c == '0')) = ("")
    then ("00") else String.mk (log.data.dropWhile (fun c => c == '0'))), ?_, rfl, ?_, ?_, ?_⟩
  · simp [huffLogLine, hsel]
  · exact format_even_bytes_length_even _
  · intro hbody
    by_cases ht : String.mk (log.data.dropWhile (fun c => c == '0')) = ("")
    · rw [if_pos ht] at hbody
      exact absurd hbody (by decide)
    · rw [if_neg ht] at hbody
      apply ht
      have hge := format_even_bytes_length_ge
        (String.mk (log.data.dropWhile (fun c => c == '0')))
      rw [hbody] at hge
      have hlist : (log.data.dropWhile (fun c => c == '0')).length = 0 := by
        simpa using hge
      have hnil : log.data.dropWhile (fun c => c == '0') = [] :=
        List.length_eq_zero.mp hlist
      rw [hnil]
  · intro hall
    have hnil : log.data.dropWhile (fun c => c == '0') = [] :=
      List.dropWhile_eq_nil_iff.mpr (fun x hx => by simp [hall x hx])
    rw [hnil]
    rfl

/-- Witness for claim C8 at the odd-length input `abc` from the spec's
test list (`0xabc` becomes `0x0abc`). -/
theorem c8_witness :
    strStartsWith ("abc") ("32d5ab96") = false ∧
    (∃ body,
      huffLogLine 1 (0, 0, ("abc")) =
        some (OutputEvent.out ((if 0 = 1 then ("╰─") else ("│ ")) ++ (" 0x") ++ body)) ∧
      body = format_even_bytes (if String.mk (("abc").data.dropWhile (fun c => c == '0')) = ("")
        then ("00") else String.mk (("abc").data.dropWhile (fun c => c == '0'))) ∧
      body.length % 2 = 0 ∧
      body ≠ ("") ∧
      ((∀ c ∈ ("abc").data, c = '0') → body = ("00"))) :=
  ⟨by decide, c8_fallback_hex_normalization ("abc") 0 0 1 (by decide)⟩

/-- Claim C9: log entries appear in the output in exactly the order of
the record's logs sequence: in both narrative modes, whenever the log
block is rendered, its line at position i (after the heading in the raw
mode) is precisely the rendering of the i-th log entry. -/
theorem c9_log_order_preserved (r : TestResult) (i : Nat) (e0 : Nat × String)
    (h2 : 2 ≤ r.logs.length) (he : r.logs[i]? = some e0) :
    (listLogEvents r)[i + 1]? = some (listLogLine (r.logs.length - 1) (i, e0)) ∧
    (∀ evs, huffLogEvents r = some evs →
      evs[i]? = huffLogLine (r.logs.length - 1) (i, e0)) := by
  have hpos : 0 < r.logs.length - 1 := by omega
  constructor
  · simp only [listLogEvents]
    rw [if_pos hpos]
    simp [List.getElem?_cons_succ, List.getElem?_map, List.getElem?_enum, he]
  · intro evs hev
    simp only [huffLogEvents] at hev
    rw [if_pos hpos] at hev
    rw [optionMapM_getElem? hev i]
    simp [List.getElem?_enum, he]

/-- Witness for claim C9 at the first entry of a concrete two-log
record. -/
theorem c9_witness :
    2 ≤ recTwoLogs.logs.length ∧
    recTwoLogs.logs[0]? = some (1, ("ff")) ∧
    ((listLogEvents recTwoLogs)[0 + 1]? =
      some (listLogLine (recTwoLogs.logs.length - 1) (0, (1, ("ff")))) ∧
     (∀ evs, huffLogEvents recTwoLogs = some evs →
       evs[0]? = huffLogLine (recTwoLogs.logs.length - 1) (0, (1, ("ff")))))  :=
  ⟨by decide, by decide,
    c9_log_order_preserved recTwoLogs 0 (1, ("ff")) (by decide) (by decide)⟩

/-- Claim C10: in both narrative modes, the connector before the
return-data (or decoded message) line is the terminal connector exactly
when the record has at most one log entry and the continuing connector
exactly when it has two or more (the source tests
`logs.len().saturating_sub(1) == 0`, which is equivalent). -/
theorem c10_return_data_connector (r : TestResult) (rd : String)
    (hrd : r.return_data = some rd) :
    listRetEvents r = [OutputEvent.out ("├─ RETURN DATA"),
      OutputEvent.out ((if r.logs.length ≤ 1 then ("╰─") else ("├─")) ++ (" ") ++ rd)] ∧
    (∀ msg, decodeRevert rd = some msg →
      huffRetEvents r =
        some [OutputEvent.out ((if r.logs.length ≤ 1 then ("╰─") else ("├─")) ++
          (" ") ++ msg)]) := by
  have hiff : (r.logs.length - 1 = 0) ↔ (r.logs.length ≤ 1) := by omega
  constructor
  · simp only [listRetEvents, hrd, hiff]
  · intro msg hmsg
    simp only [huffRetEvents, hrd, hmsg, hiff]

/-- Witness for claim C10 at a concrete two-log record with return
data. -/
theorem c10_witness :
    recRetTwoLogs.return_data = some ("dead") ∧
    decodeRevert ("dead") = some ("test failed") ∧
    (listRetEvents recRetTwoLogs = [OutputEvent.out ("├─ RETURN DATA"),
       OutputEvent.out ((if recRetTwoLogs.logs.length ≤ 1 then ("╰─") else ("├─")) ++
         (" ") ++ ("dead"))] ∧
     (∀ msg, decodeRevert ("dead") = some msg →
       huffRetEvents recRetTwoLogs =
         some [OutputEvent.out ((if recRetTwoLogs.logs.length ≤ 1 then ("╰─") else ("├─")) ++
           (" ") ++ msg)])) :=
  ⟨rfl, rfl, c10_return_data_connector recRetTwoLogs ("dead") rfl⟩
